import Mathlib

/-!
Verification of the world-position extraction API of QuickWorldPos
(src/get_world_position.py) against its specification.

The repository's own functions (`get_world_position`,
`get_world_positions_batch`, `get_world_transform_components`) are thin
wrappers around the external USD scene-graph library.  The wrapper logic is
embedded directly from src/get_world_position.py.  The transform machinery
it delegates to (`ComputeLocalToWorldTransform`, `XformCache`,
`ExtractTranslation`, `ExtractRotationMatrix`, `GetLength`, time-sampled op
evaluation) is not part of this repository; those parts are modelled from
the specification (sections 3, 4.1, 4.2, 4.3 of spec.md).

Conventions follow USD: matrices act on row vectors (point * matrix), the
upper-left 3x3 block is the linear part, and the translation is a separate
row vector.  Scalars are real numbers.
-/

noncomputable section

/-- A 3-component vector of reals (models `Gf.Vec3d`). -/
@[ext]
structure Vec3 where
  x : ℝ
  y : ℝ
  z : ℝ

namespace Vec3

def zeroV : Vec3 := ⟨0, 0, 0⟩

instance : Add Vec3 := ⟨fun a b => ⟨a.x + b.x, a.y + b.y, a.z + b.z⟩⟩

instance : Sub Vec3 := ⟨fun a b => ⟨a.x - b.x, a.y - b.y, a.z - b.z⟩⟩

instance : SMul ℝ Vec3 := ⟨fun r v => ⟨r * v.x, r * v.y, r * v.z⟩⟩

@[simp] theorem add_def (a b : Vec3) : a + b = ⟨a.x + b.x, a.y + b.y, a.z + b.z⟩ := rfl

@[simp] theorem sub_def (a b : Vec3) : a - b = ⟨a.x - b.x, a.y - b.y, a.z - b.z⟩ := rfl

@[simp] theorem smul_def (r : ℝ) (v : Vec3) : r • v = ⟨r * v.x, r * v.y, r * v.z⟩ := rfl

/-- Dot product. -/
def dot (a b : Vec3) : ℝ := a.x * b.x + a.y * b.y + a.z * b.z

/-- Euclidean length (models `Gf.Vec3d.GetLength`). -/
def length (v : Vec3) : ℝ := Real.sqrt (v.x ^ 2 + v.y ^ 2 + v.z ^ 2)

end Vec3

/-- A 3x3 matrix stored as three row vectors (models `Gf.Matrix3d`;
iterating a `Gf.Matrix3d` in Python yields its rows). -/
@[ext]
structure Mat3 where
  r0 : Vec3
  r1 : Vec3
  r2 : Vec3

/-- Row vector times matrix: `v * M` in USD's row-vector convention. -/
def vecMulMat (v : Vec3) (m : Mat3) : Vec3 :=
  v.x • m.r0 + v.y • m.r1 + v.z • m.r2

/-- Matrix product (row convention): row i of `matMul a b` is row i of `a`
times `b`. -/
def matMul (a b : Mat3) : Mat3 :=
  ⟨vecMulMat a.r0 b, vecMulMat a.r1 b, vecMulMat a.r2 b⟩

/-- The identity 3x3 matrix. -/
def idMat : Mat3 := ⟨⟨1, 0, 0⟩, ⟨0, 1, 0⟩, ⟨0, 0, 1⟩⟩

/-- An affine 4x4 transform, split as linear 3x3 part plus translation row
(models `Gf.Matrix4d` restricted to affine transforms).  It maps a point
`p` to `p * lin + trans` (row-vector convention). -/
@[ext]
structure Affine where
  lin : Mat3
  trans : Vec3

namespace Affine

/-- Apply the affine map to a point. -/
def apply (m : Affine) (p : Vec3) : Vec3 := vecMulMat p m.lin + m.trans

/-- The identity transform. -/
def idA : Affine := ⟨idMat, Vec3.zeroV⟩

/-- Composition: `comp a b` applies `a` first, then `b`
(so `(comp a b).apply p = b.apply (a.apply p)`).  In the spec's
column-vector notation this is the product `B · A`. -/
def comp (a b : Affine) : Affine :=
  ⟨matMul a.lin b.lin, vecMulMat a.trans b.lin + b.trans⟩

/-- Models `ExtractTranslation` of `Gf.Matrix4d`: the translation row. -/
def ExtractTranslation (m : Affine) : Vec3 := m.trans

/-- Models `ExtractRotationMatrix` of `Gf.Matrix4d`: the upper-left 3x3 block,
verbatim, with no orthonormalization. -/
def ExtractRotationMatrix (m : Affine) : Mat3 := m.lin

end Affine

/-- Time codes: `none` is the `Usd.TimeCode.Default()` sentinel, `some t`
a numeric time. -/
abbrev TimeCode := Option ℝ

/-- A time-sampled attribute value (spec 3, 4.1): an optional default value
plus a list of `(time, value)` samples in ascending time order. -/
structure TimeSampled (α : Type) where
  defaultValue : Option α
  samples : List (ℝ × α)

/-- Linear interpolation of vectors. -/
def lerpVec (a b : Vec3) (r : ℝ) : Vec3 := a + r • (b - a)

/-- Linear interpolation of scalars. -/
def lerpReal (a b : ℝ) (r : ℝ) : ℝ := a + r * (b - a)

/-- Modelled from the spec (4.1): walk the sample list from a current
bracketing sample; clamp below the first sample, linearly interpolate
between bracketing samples, clamp above the last sample. -/
def interpFrom {α : Type} (lerpf : α → α → ℝ → α) :
    ℝ × α → List (ℝ × α) → ℝ → α
  | (_, v0), [], _ => v0
  | (t0, v0), (t1, v1) :: rest, t =>
    if t ≤ t0 then v0
    else if t ≤ t1 then lerpf v0 v1 ((t - t0) / (t1 - t0))
    else interpFrom lerpf (t1, v1) rest t

/-- Modelled from the spec (4.1): evaluate a time-sampled value at a time
code.  At the default sentinel the default value wins, else the earliest
sample; at a numeric time the samples are interpolated with clamping, and
the default value is used only when there are no samples. -/
def evalTS {α : Type} (lerpf : α → α → ℝ → α) (ts : TimeSampled α) :
    TimeCode → Option α
  | none => ts.defaultValue.orElse (fun _ => ts.samples.head?.map (fun s => s.2))
  | some t =>
    match ts.samples with
    | [] => ts.defaultValue
    | s :: rest => some (interpFrom lerpf s rest t)

/-- A transform op (spec 3, 4.1): tagged variant over translate, rotate
about a principal axis, three-axis Euler rotate, scale, and explicit
matrix, each with a time-sampled payload.  Angles are in degrees. -/
inductive XformOp where
  | translate (v : TimeSampled Vec3)
  | scaleOp (v : TimeSampled Vec3)
  | rotateX (a : TimeSampled ℝ)
  | rotateY (a : TimeSampled ℝ)
  | rotateZ (a : TimeSampled ℝ)
  | rotateXYZ (a : TimeSampled Vec3)
  | matrixOp (m : TimeSampled Affine)

/-- Degrees to radians. -/
def degToRad (a : ℝ) : ℝ := a * Real.pi / 180

/-- Pure translation transform. -/
def translateMat (v : Vec3) : Affine := ⟨idMat, v⟩

/-- Diagonal scale transform; components may be negative or zero. -/
def scaleMat (v : Vec3) : Affine :=
  ⟨⟨⟨v.x, 0, 0⟩, ⟨0, v.y, 0⟩, ⟨0, 0, v.z⟩⟩, Vec3.zeroV⟩

/-- Right-hand rotation about the X axis by `a` degrees (row convention). -/
def rotXMat (a : ℝ) : Affine :=
  ⟨⟨⟨1, 0, 0⟩,
    ⟨0, Real.cos (degToRad a), Real.sin (degToRad a)⟩,
    ⟨0, -Real.sin (degToRad a), Real.cos (degToRad a)⟩⟩, Vec3.zeroV⟩

/-- Right-hand rotation about the Y axis by `a` degrees (row convention). -/
def rotYMat (a : ℝ) : Affine :=
  ⟨⟨⟨Real.cos (degToRad a), 0, -Real.sin (degToRad a)⟩,
    ⟨0, 1, 0⟩,
    ⟨Real.sin (degToRad a), 0, Real.cos (degToRad a)⟩⟩, Vec3.zeroV⟩

/-- Right-hand rotation about the Z axis by `a` degrees (row convention). -/
def rotZMat (a : ℝ) : Affine :=
  ⟨⟨⟨Real.cos (degToRad a), Real.sin (degToRad a), 0⟩,
    ⟨-Real.sin (degToRad a), Real.cos (degToRad a), 0⟩,
    ⟨0, 0, 1⟩⟩, Vec3.zeroV⟩

/-- Componentwise linear interpolation of affine matrices (for
time-sampled explicit matrix ops). -/
def lerpAffine (a b : Affine) (r : ℝ) : Affine :=
  ⟨⟨lerpVec a.lin.r0 b.lin.r0 r, lerpVec a.lin.r1 b.lin.r1 r,
    lerpVec a.lin.r2 b.lin.r2 r⟩, lerpVec a.trans b.trans r⟩

/-- Modelled from the spec (4.1): evaluate one op at a time code, giving
its affine matrix; an op with no authored value contributes the identity. -/
def evalOp (op : XformOp) (t : TimeCode) : Affine :=
  match op with
  | .translate ts => (evalTS lerpVec ts t).elim Affine.idA translateMat
  | .scaleOp ts => (evalTS lerpVec ts t).elim Affine.idA scaleMat
  | .rotateX ts => (evalTS lerpReal ts t).elim Affine.idA rotXMat
  | .rotateY ts => (evalTS lerpReal ts t).elim Affine.idA rotYMat
  | .rotateZ ts => (evalTS lerpReal ts t).elim Affine.idA rotZMat
  | .rotateXYZ ts =>
    (evalTS lerpVec ts t).elim Affine.idA (fun v =>
      Affine.comp (rotXMat v.x) (Affine.comp (rotYMat v.y) (rotZMat v.z)))
  | .matrixOp ts => (evalTS lerpAffine ts t).elim Affine.idA id

/-- Modelled from the spec (3, 4.2): the composed local transform applies
the last authored op to the point first and the first authored op last, so
in the point-application order `comp` the authored list is folded with each
op's matrix composed before the accumulator. -/
def localXform (ops : List XformOp) (t : TimeCode) : Affine :=
  ops.foldl (fun acc op => Affine.comp (evalOp op t) acc) Affine.idA

/-- The data a prim carries: its name, whether it is transformable
(`IsA UsdGeom.Xformable`), and its ordered transform ops. -/
structure PrimData where
  name : String
  xformable : Bool
  ops : List XformOp

/-- A prim identified by its chain of ancestors up to the stage
pseudo-root (spec 3: rooted acyclic hierarchy, one parent per node). -/
inductive Prim where
  | root
  | node (parent : Prim) (d : PrimData)

namespace Prim

/-- Whether `prim.IsA(UsdGeom.Xformable)` holds; the pseudo-root is not
transformable. -/
def isXformable : Prim → Bool
  | .root => false
  | .node _ d => d.xformable

/-- Helper for paths: empty for the pseudo-root, else the slash-separated
chain of ancestor names. -/
def pathAux : Prim → String
  | .root => ""
  | .node p d => pathAux p ++ "/" ++ d.name

/-- Models `prim.GetPath()` as a string. -/
def path : Prim → String
  | .root => "/"
  | .node p d => pathAux (.node p d)

end Prim

/-- Modelled from the spec (4.2): `ComputeLocalToWorldTransform`.
`World(node) = World(parent) · Local(node)` with `World(root) = Identity`;
in point-application order the local transform applies first, then the
parent's world transform. -/
def worldTransform : Prim → TimeCode → Affine
  | .root, _ => Affine.idA
  | .node p d, t => Affine.comp (localXform d.ops t) (worldTransform p t)

/-- Normalize a vector to unit length (division by a zero length yields the
zero vector, as real division by zero is zero). -/
def normalizeV (v : Vec3) : Vec3 := (1 / v.length) • v

/-- Modelled from the spec (4.2): the rotation component is the
orthonormalized upper-left 3x3 block (Gram-Schmidt on the rows),
re-expressed here as the orthonormal matrix itself (models
`Gf.Matrix4d.ExtractRotation`). -/
def orthonormalizedRows (m : Mat3) : Mat3 :=
  let u0 := normalizeV m.r0
  let u1 := normalizeV (m.r1 - Vec3.dot m.r1 u0 • u0)
  let u2 := normalizeV (m.r2 - Vec3.dot m.r2 u0 • u0 - Vec3.dot m.r2 u1 • u1)
  ⟨u0, u1, u2⟩

/-- Models `world_transform.ExtractRotation()`: the orthonormalized rotation. -/
def ExtractRotation (m : Affine) : Mat3 :=
  orthonormalizedRows (Affine.ExtractRotationMatrix m)

/-- The error message raised by `get_world_position` for a
non-transformable prim (src/get_world_position.py line 59). -/
def notXformableMsg (p : String) : String :=
  "Prim at path " ++ p ++ " is not transformable. It must inherit from UsdGeomXformable."

/-- The error message raised by `get_world_transform_components` for a
non-transformable prim (src/get_world_position.py line 160). -/
def notXformableShortMsg (p : String) : String :=
  "Prim at path " ++ p ++ " is not transformable."

/-- The warning printed by `get_world_positions_batch` for a
non-transformable prim (src/get_world_position.py line 115). -/
def skipWarnMsg (p : String) : String :=
  "Warning: Prim " ++ p ++ " is not transformable, skipping."

/-- Embedding of `get_world_position` (src/get_world_position.py lines
19-66): raise for non-transformable prims, else the translation of the
world transform. -/
def get_world_position (prim : Prim) (t : TimeCode) : Except String Vec3 :=
  if prim.isXformable then
    .ok (Affine.ExtractTranslation (worldTransform prim t))
  else
    .error (notXformableMsg prim.path)

/-- Embedding of `get_world_positions_batch` (src/get_world_position.py
lines 69-122): the loop over the prims, returning the printed warnings and
the positions; a non-transformable prim yields a warning and the zero
vector.  The `XformCache` is modelled as semantically transparent
memoization (spec 4.3), so each transformable element's position is the
translation of its world transform. -/
def get_world_positions_batch (prims : List Prim) (t : TimeCode) :
    List String × List Vec3 :=
  match prims with
  | [] => ([], [])
  | p :: ps =>
    let rest := get_world_positions_batch ps t
    if p.isXformable then
      (rest.1, Affine.ExtractTranslation (worldTransform p t) :: rest.2)
    else
      (skipWarnMsg p.path :: rest.1, Vec3.zeroV :: rest.2)

/-- Embedding of `get_world_transform_components` (src/get_world_position.py
lines 125-171): raise for non-transformable prims, else the translation,
the extracted rotation, and the per-row lengths of the upper-left 3x3 block
(`Gf.Vec3d(*(v.GetLength() for v in world_transform.ExtractRotationMatrix()))`). -/
def get_world_transform_components (prim : Prim) (t : TimeCode) :
    Except String (Vec3 × Mat3 × Vec3) :=
  if prim.isXformable then
    let w := worldTransform prim t
    .ok (Affine.ExtractTranslation w, ExtractRotation w,
      ⟨(Affine.ExtractRotationMatrix w).r0.length,
       (Affine.ExtractRotationMatrix w).r1.length,
       (Affine.ExtractRotationMatrix w).r2.length⟩)
  else
    .error (notXformableShortMsg prim.path)

/-- The warning-level `DegenerateInput` diagnostic text (spec 7). -/
def degenerateMsg : String :=
  "Warning: DegenerateInput: scale op evaluated with a zero component; " ++
    "the transform is non-invertible."

/-- Modelled from the spec (7): op evaluation with the `DegenerateInput`
diagnostic channel.  A scale op whose evaluated vector has a zero component
records a warning-level diagnostic and evaluation continues with the same
matrix as `evalOp`; no op evaluation ever fails. -/
def evalOpChecked (op : XformOp) (t : TimeCode) : Affine × List String :=
  match op with
  | .scaleOp ts =>
    match evalTS lerpVec ts t with
    | some v =>
      (scaleMat v,
        if v.x = 0 ∨ v.y = 0 ∨ v.z = 0 then [degenerateMsg] else [])
    | none => (Affine.idA, [])
  | _ => (evalOp op t, [])

/-- A constant (non-animated) time-sampled vector value. -/
def constTS (v : Vec3) : TimeSampled Vec3 := ⟨some v, []⟩

/-- Example prim: a `Scope` under the root, not transformable. -/
def scopeEx : Prim := .node .root ⟨"Scope", false, []⟩

/-- Example prim: a cube under the root translated by `(10, 5, 0)`. -/
def cubeEx : Prim :=
  .node .root ⟨"Cube", true, [.translate (constTS ⟨10, 5, 0⟩)]⟩

/-- Example prim: a prim under the root with a mirroring scale
`(-2, 3, 4)`. -/
def mirrorEx : Prim :=
  .node .root ⟨"Mirror", true, [.scaleOp (constTS ⟨-2, 3, 4⟩)]⟩

/-- Example time-sampled translation used by the spec (8):
`{0 -> (0,0,0), 50 -> (50,0,0), 100 -> (100,0,0)}`, no default. -/
def animTS : TimeSampled Vec3 :=
  ⟨none, [(0, ⟨0, 0, 0⟩), (50, ⟨50, 0, 0⟩), (100, ⟨100, 0, 0⟩)]⟩

/-- Example scale payload with a zero component. -/
def zeroScaleTS : TimeSampled Vec3 := constTS ⟨0, 1, 1⟩

/-- An affine transform whose linear part shears y into x (no rotation,
determinant 1). -/
def shearAffine : Affine :=
  ⟨⟨⟨1, 0, 0⟩, ⟨1, 1, 0⟩, ⟨0, 0, 1⟩⟩, Vec3.zeroV⟩

/-- Example prim: a prim under the root carrying the shear as an explicit
matrix op. -/
def shearEx : Prim :=
  .node .root ⟨"Shear", true, [.matrixOp ⟨some shearAffine, []⟩]⟩

/-! ## Helper lemmas -/

theorem Vec3.add_zeroV (v : Vec3) : v + Vec3.zeroV = v := by
  ext <;> simp [Vec3.zeroV]

theorem Vec3.zeroV_add (v : Vec3) : Vec3.zeroV + v = v := by
  ext <;> simp [Vec3.zeroV]

theorem vecMulMat_idMat (v : Vec3) : vecMulMat v idMat = v := by
  ext <;> simp [vecMulMat, idMat]

theorem vecMulMat_zeroV (m : Mat3) : vecMulMat Vec3.zeroV m = Vec3.zeroV := by
  ext <;> simp [vecMulMat, Vec3.zeroV]

theorem rowZero_mul (m : Mat3) : vecMulMat ⟨1, 0, 0⟩ m = m.r0 := by
  ext <;> simp [vecMulMat]

theorem rowOne_mul (m : Mat3) : vecMulMat ⟨0, 1, 0⟩ m = m.r1 := by
  ext <;> simp [vecMulMat]

theorem rowTwo_mul (m : Mat3) : vecMulMat ⟨0, 0, 1⟩ m = m.r2 := by
  ext <;> simp [vecMulMat]

theorem matMul_idMat (m : Mat3) : matMul m idMat = m := by
  ext <;> simp [matMul, vecMulMat_idMat]

theorem idMat_matMul (m : Mat3) : matMul idMat m = m := by
  simp [matMul, idMat, rowZero_mul, rowOne_mul, rowTwo_mul]

theorem Affine.comp_idA (a : Affine) : Affine.comp a Affine.idA = a := by
  simp [Affine.comp, Affine.idA, matMul_idMat, vecMulMat_idMat, Vec3.zeroV]

theorem Affine.idA_comp (a : Affine) : Affine.comp Affine.idA a = a := by
  simp [Affine.comp, Affine.idA, idMat_matMul, vecMulMat, Vec3.zeroV]

theorem localXform_single (op : XformOp) (t : TimeCode) :
    localXform [op] t = evalOp op t := by
  simp [localXform, Affine.comp_idA]

theorem evalOp_translate_const (v : Vec3) (t : TimeCode) :
    evalOp (.translate (constTS v)) t = translateMat v := by
  cases t <;> simp [evalOp, evalTS, constTS, Option.orElse]

theorem evalOp_scale_const (v : Vec3) (t : TimeCode) :
    evalOp (.scaleOp (constTS v)) t = scaleMat v := by
  cases t <;> simp [evalOp, evalTS, constTS, Option.orElse]

theorem evalOp_matrix_const (m : Affine) (t : TimeCode) :
    evalOp (.matrixOp ⟨some m, []⟩) t = m := by
  cases t <;> simp [evalOp, evalTS, Option.orElse]

theorem interpFrom_clamp_below {α : Type} (lerpf : α → α → ℝ → α)
    (s : ℝ × α) (rest : List (ℝ × α)) (t : ℝ) (h : t ≤ s.1) :
    interpFrom lerpf s rest t = s.2 := by
  obtain ⟨t0, v0⟩ := s
  cases rest with
  | nil => rfl
  | cons b l =>
    obtain ⟨t1, v1⟩ := b
    simp only [interpFrom]
    rw [if_pos h]

theorem interpFrom_clamp_above {α : Type} (lerpf : α → α → ℝ → α) :
    ∀ (rest : List (ℝ × α)) (s : ℝ × α) (t : ℝ),
      s.1 < t → (∀ q ∈ rest, q.1 < t) →
      interpFrom lerpf s rest t = (rest.getLastD s).2 := by
  intro rest
  induction rest with
  | nil =>
    intro s t hs _
    obtain ⟨t0, v0⟩ := s
    rfl
  | cons b l ih =>
    intro s t hs hall
    obtain ⟨t0, v0⟩ := s
    obtain ⟨t1, v1⟩ := b
    have h1 : t1 < t := hall (t1, v1) (List.mem_cons_self _ _)
    simp only [interpFrom]
    rw [if_neg (not_le.mpr hs), if_neg (not_le.mpr h1),
      ih (t1, v1) t h1 (fun q hq => hall q (List.mem_cons_of_mem _ hq)),
      List.getLastD_cons]

theorem interpFrom_between {α : Type} (lerpf : α → α → ℝ → α) :
    ∀ (pre : List (ℝ × α)) (s : ℝ × α) (t0 t1 : ℝ) (v0 v1 : α)
      (post : List (ℝ × α)) (t : ℝ),
      s.1 < t → (∀ q ∈ pre, q.1 < t) → t0 < t → t ≤ t1 →
      interpFrom lerpf s (pre ++ (t0, v0) :: (t1, v1) :: post) t =
        lerpf v0 v1 ((t - t0) / (t1 - t0)) := by
  intro pre
  induction pre with
  | nil =>
    intro s t0 t1 v0 v1 post t hs _ h0 h1
    obtain ⟨ts, vs⟩ := s
    simp only [List.nil_append, interpFrom]
    rw [if_neg (not_le.mpr hs), if_neg (not_le.mpr h0), if_pos h1,
      if_neg (not_le.mpr h0)]
  | cons q pre2 ih =>
    intro s t0 t1 v0 v1 post t hs hall h0 h1
    obtain ⟨ts, vs⟩ := s
    obtain ⟨tq, vq⟩ := q
    have hq : tq < t := hall (tq, vq) (List.mem_cons_self _ _)
    simp only [List.cons_append, interpFrom]
    rw [if_neg (not_le.mpr hs), if_neg (not_le.mpr hq)]
    exact ih (tq, vq) t0 t1 v0 v1 post t hq
      (fun r hr => hall r (List.mem_cons_of_mem _ hr)) h0 h1

/-! ## Claim theorems -/

/-- C1: for every hierarchy, the world transform of a node is its parent's
world transform composed with the node's local transform (`World(node) =
World(parent) · Local(node)`, identity at the root); and for a parent
carrying only a translation `p` and a child carrying only a translation
`c`, `get_world_position` of the child returns `p + c`. -/
theorem world_composition_and_translation_additivity :
    (∀ t : TimeCode, worldTransform .root t = Affine.idA) ∧
    (∀ (p : Prim) (d : PrimData) (t : TimeCode),
      worldTransform (.node p d) t =
        Affine.comp (localXform d.ops t) (worldTransform p t)) ∧
    (∀ (pv cv : Vec3) (pn cn : String) (t : TimeCode),
      get_world_position
        (.node (.node .root ⟨pn, true, [.translate (constTS pv)]⟩)
          ⟨cn, true, [.translate (constTS cv)]⟩) t = .ok (pv + cv)) := by
  refine ⟨fun t => rfl, fun p d t => rfl, fun pv cv pn cn t => ?_⟩
  have hw : worldTransform
      (.node (.node .root ⟨pn, true, [.translate (constTS pv)]⟩)
        ⟨cn, true, [.translate (constTS cv)]⟩) t =
      Affine.comp (translateMat cv) (translateMat pv) := by
    simp [worldTransform, localXform_single, evalOp_translate_const,
      Affine.comp_idA]
  simp only [get_world_position, Prim.isXformable, if_pos, hw]
  simp [Affine.comp, Affine.ExtractTranslation, translateMat, vecMulMat_idMat]
  refine ⟨?_, ?_, ?_⟩ <;> ring

theorem batch_length (prims : List Prim) (t : TimeCode) :
    ((get_world_positions_batch prims t).2).length = prims.length := by
  induction prims with
  | nil => rfl
  | cons p ps ih =>
    cases hx : p.isXformable <;>
      simp [get_world_positions_batch, hx, ih]

theorem batch_getElem? (prims : List Prim) (t : TimeCode) :
    ∀ i : ℕ,
      ((get_world_positions_batch prims t).2)[i]? =
        (prims[i]?).map (fun p =>
          if p.isXformable then
            Affine.ExtractTranslation (worldTransform p t)
          else Vec3.zeroV) := by
  induction prims with
  | nil => intro i; cases i <;> rfl
  | cons p ps ih =>
    intro i
    cases i with
    | zero => cases hx : p.isXformable <;>
        simp [get_world_positions_batch, hx]
    | succ n => cases hx : p.isXformable <;>
        simp [get_world_positions_batch, hx, ih]

theorem batch_warn_mem (prims : List Prim) (t : TimeCode) :
    ∀ (i : ℕ) (p : Prim), prims[i]? = some p → p.isXformable = false →
      skipWarnMsg p.path ∈ (get_world_positions_batch prims t).1 := by
  induction prims with
  | nil => intro i p hp; simp at hp
  | cons q ps ih =>
    intro i p hp hx
    cases i with
    | zero =>
      simp only [List.getElem?_cons_zero, Option.some.injEq] at hp
      subst hp
      simp [get_world_positions_batch, hx]
    | succ n =>
      simp only [List.getElem?_cons_succ] at hp
      have hmem := ih n p hp hx
      cases hq : q.isXformable <;>
        simp [get_world_positions_batch, hq, hmem]

/-- C2: each single-node query raises the invalid-node-kind `RuntimeError`
(whose message contains the prim's path) iff the prim is not transformable,
the check is made before any transform computation (the error branch is
taken regardless of the transform), and on a transformable prim
`get_world_position` returns the translation of the world transform. -/
theorem single_queries_raise_iff_not_transformable (prim : Prim) (t : TimeCode) :
    ((∃ e, get_world_position prim t = .error e) ↔ prim.isXformable = false) ∧
    ((∃ e, get_world_transform_components prim t = .error e) ↔
      prim.isXformable = false) ∧
    (prim.isXformable = false →
      get_world_position prim t = .error (notXformableMsg prim.path) ∧
      get_world_transform_components prim t =
        .error (notXformableShortMsg prim.path) ∧
      (∃ a b, notXformableMsg prim.path = a ++ (prim.path ++ b)) ∧
      (∃ a b, notXformableShortMsg prim.path = a ++ (prim.path ++ b))) ∧
    (prim.isXformable = true →
      get_world_position prim t =
        .ok (Affine.ExtractTranslation (worldTransform prim t))) := by
  cases hx : prim.isXformable with
  | false =>
    refine ⟨?_, ?_, ?_, ?_⟩
    · simp [get_world_position, hx]
    · simp [get_world_transform_components, hx]
    · intro _
      refine ⟨by simp [get_world_position, hx], by simp [get_world_transform_components, hx], ?_, ?_⟩
      · exact ⟨"Prim at path ",
          " is not transformable. It must inherit from UsdGeomXformable.",
          by simp [notXformableMsg, String.append_assoc]⟩
      · exact ⟨"Prim at path ", " is not transformable.",
          by simp [notXformableShortMsg, String.append_assoc]⟩
    · intro h; simp at h
  | true =>
    refine ⟨?_, ?_, ?_, ?_⟩
    · simp [get_world_position, hx]
    · simp [get_world_transform_components, hx]
    · intro h; simp at h
    · intro _; simp [get_world_position, hx]

/-- Witness for C2: the non-transformable `Scope` prim raises on both
single-node queries; the transformable cube returns the translation. -/
theorem single_queries_raise_iff_not_transformable_witness :
    Prim.isXformable scopeEx = false ∧
    get_world_position scopeEx none = .error (notXformableMsg (Prim.path scopeEx)) ∧
    get_world_transform_components scopeEx none =
      .error (notXformableShortMsg (Prim.path scopeEx)) ∧
    Prim.isXformable cubeEx = true ∧
    get_world_position cubeEx none =
      .ok (Affine.ExtractTranslation (worldTransform cubeEx none)) :=
  ⟨rfl,
    ((single_queries_raise_iff_not_transformable scopeEx none).2.2.1 rfl).1,
    ((single_queries_raise_iff_not_transformable scopeEx none).2.2.1 rfl).2.1,
    rfl,
    (single_queries_raise_iff_not_transformable cubeEx none).2.2.2 rfl⟩

/-- C3: `get_world_positions_batch` never raises (it is a total function
into warnings and positions); a non-transformable prim at index `i` yields
the zero vector there and a recorded warning naming its path, and a
transformable prim at index `i` yields its world translation as usual. -/
theorem batch_zero_placeholder_for_bad_elements (prims : List Prim)
    (t : TimeCode) (i : ℕ) (p : Prim) (hp : prims[i]? = some p) :
    (p.isXformable = false →
      ((get_world_positions_batch prims t).2)[i]? = some Vec3.zeroV ∧
      skipWarnMsg p.path ∈ (get_world_positions_batch prims t).1) ∧
    (p.isXformable = true →
      ((get_world_positions_batch prims t).2)[i]? =
        some (Affine.ExtractTranslation (worldTransform p t))) := by
  constructor
  · intro hx
    refine ⟨?_, batch_warn_mem prims t i p hp hx⟩
    rw [batch_getElem?, hp]
    simp [hx]
  · intro hx
    rw [batch_getElem?, hp]
    simp [hx]

/-- Witness for C3: a batch over the cube and the non-transformable scope
puts the zero vector at the scope's index and records its warning. -/
theorem batch_zero_placeholder_for_bad_elements_witness :
    ([cubeEx, scopeEx] : List Prim)[1]? = some scopeEx ∧
    Prim.isXformable scopeEx = false ∧
    ((get_world_positions_batch [cubeEx, scopeEx] none).2)[1]? =
      some Vec3.zeroV ∧
    skipWarnMsg (Prim.path scopeEx) ∈
      (get_world_positions_batch [cubeEx, scopeEx] none).1 :=
  ⟨rfl, rfl,
    ((batch_zero_placeholder_for_bad_elements [cubeEx, scopeEx] none 1
      scopeEx rfl).1 rfl).1,
    ((batch_zero_placeholder_for_bad_elements [cubeEx, scopeEx] none 1
      scopeEx rfl).1 rfl).2⟩

/-- C4: when every prim in the list is transformable, the batch output at
index `i` equals the result of the independent single query
`get_world_position prims[i]` at the same time. -/
theorem batch_matches_single_queries (prims : List Prim) (t : TimeCode)
    (hall : ∀ p ∈ prims, p.isXformable = true)
    (i : ℕ) (p : Prim) (hp : prims[i]? = some p) :
    ((get_world_positions_batch prims t).2)[i]? =
      some (Affine.ExtractTranslation (worldTransform p t)) ∧
    get_world_position p t =
      .ok (Affine.ExtractTranslation (worldTransform p t)) := by
  have hx : p.isXformable = true := by
    obtain ⟨h, he⟩ := List.getElem?_eq_some.mp hp
    exact hall p (he ▸ List.getElem_mem h)
  constructor
  · rw [batch_getElem?, hp]; simp [hx]
  · simp [get_world_position, hx]

/-- Witness for C4: a two-cube batch agrees with the single queries. -/
theorem batch_matches_single_queries_witness :
    (∀ p ∈ ([cubeEx, cubeEx] : List Prim), p.isXformable = true) ∧
    ([cubeEx, cubeEx] : List Prim)[0]? = some cubeEx ∧
    ((get_world_positions_batch [cubeEx, cubeEx] none).2)[0]? =
      some (Affine.ExtractTranslation (worldTransform cubeEx none)) ∧
    get_world_position cubeEx none =
      .ok (Affine.ExtractTranslation (worldTransform cubeEx none)) := by
  have hall : ∀ p ∈ ([cubeEx, cubeEx] : List Prim), p.isXformable = true := by
    rintro p hp
    fin_cases hp <;> rfl
  exact ⟨hall, rfl,
    batch_matches_single_queries [cubeEx, cubeEx] none hall 0 cubeEx rfl⟩

/-- C5: the batch output has one position per input prim, in input order:
the output list has the same length as the input, its element at every
index `i` is exactly the result for the input prim at index `i` (the world
translation for a transformable prim, the zero-vector placeholder
otherwise), and the empty input returns the empty output with no warnings
and no error. -/
theorem batch_same_length_and_empty (prims : List Prim) (t : TimeCode) :
    ((get_world_positions_batch prims t).2).length = prims.length ∧
    (∀ i : ℕ, ((get_world_positions_batch prims t).2)[i]? =
      (prims[i]?).map (fun p =>
        if p.isXformable then
          Affine.ExtractTranslation (worldTransform p t)
        else Vec3.zeroV)) ∧
    get_world_positions_batch [] t = ([], []) :=
  ⟨batch_length prims t, batch_getElem? prims t, rfl⟩

/-- C6: for every transformable prim the scale returned by
`get_world_transform_components` is the per-axis length of the rows of the
world matrix's pre-orthonormalization upper-left 3x3 block; shear is
silently discarded — on a world transform that is a pure shear the
reported scale is just the row lengths `(1, sqrt 2, 1)`, with no shear
reported and no error. -/
theorem components_scale_is_row_lengths :
    (∀ (prim : Prim) (t : TimeCode), prim.isXformable = true →
      get_world_transform_components prim t =
        .ok (Affine.ExtractTranslation (worldTransform prim t),
          ExtractRotation (worldTransform prim t),
          ⟨(Affine.ExtractRotationMatrix (worldTransform prim t)).r0.length,
           (Affine.ExtractRotationMatrix (worldTransform prim t)).r1.length,
           (Affine.ExtractRotationMatrix (worldTransform prim t)).r2.length⟩)) ∧
    get_world_transform_components shearEx none =
      .ok (Affine.ExtractTranslation (worldTransform shearEx none),
        ExtractRotation (worldTransform shearEx none),
        ⟨1, Real.sqrt 2, 1⟩) := by
  constructor
  · intro prim t hx
    simp [get_world_transform_components, hx]
  · have hw : worldTransform shearEx none = shearAffine := by
      simp [shearEx, worldTransform, localXform_single, evalOp_matrix_const,
        Affine.comp_idA]
    have h0 : (Affine.ExtractRotationMatrix (worldTransform shearEx none)).r0.length = 1 := by
      rw [hw]
      simp [Affine.ExtractRotationMatrix, shearAffine, Vec3.length]
    have h1 : (Affine.ExtractRotationMatrix (worldTransform shearEx none)).r1.length = Real.sqrt 2 := by
      rw [hw]
      norm_num [Affine.ExtractRotationMatrix, shearAffine, Vec3.length]
    have h2 : (Affine.ExtractRotationMatrix (worldTransform shearEx none)).r2.length = 1 := by
      rw [hw]
      simp [Affine.ExtractRotationMatrix, shearAffine, Vec3.length]
    calc get_world_transform_components shearEx none
        = .ok (Affine.ExtractTranslation (worldTransform shearEx none),
            ExtractRotation (worldTransform shearEx none),
            ⟨(Affine.ExtractRotationMatrix (worldTransform shearEx none)).r0.length,
             (Affine.ExtractRotationMatrix (worldTransform shearEx none)).r1.length,
             (Affine.ExtractRotationMatrix (worldTransform shearEx none)).r2.length⟩) := by
          simp [get_world_transform_components, shearEx, Prim.isXformable]
      _ = .ok (Affine.ExtractTranslation (worldTransform shearEx none),
            ExtractRotation (worldTransform shearEx none),
            ⟨1, Real.sqrt 2, 1⟩) := by rw [h0, h1, h2]

/-- Witness for C6: the general row-length formula applied to the concrete
translated cube. -/
theorem components_scale_is_row_lengths_witness :
    Prim.isXformable cubeEx = true ∧
    get_world_transform_components cubeEx none =
      .ok (Affine.ExtractTranslation (worldTransform cubeEx none),
        ExtractRotation (worldTransform cubeEx none),
        ⟨(Affine.ExtractRotationMatrix (worldTransform cubeEx none)).r0.length,
         (Affine.ExtractRotationMatrix (worldTransform cubeEx none)).r1.length,
         (Affine.ExtractRotationMatrix (worldTransform cubeEx none)).r2.length⟩) :=
  ⟨rfl, components_scale_is_row_lengths.1 cubeEx none rfl⟩

/-- C9: for a transformable prim, the translation component returned by
`get_world_transform_components` is the same vector `get_world_position`
returns: both are the translation of the same world transform. -/
theorem components_translation_matches_position (prim : Prim) (t : TimeCode)
    (hx : prim.isXformable = true) :
    get_world_position prim t =
      .ok (Affine.ExtractTranslation (worldTransform prim t)) ∧
    get_world_transform_components prim t =
      .ok (Affine.ExtractTranslation (worldTransform prim t),
        ExtractRotation (worldTransform prim t),
        ⟨(Affine.ExtractRotationMatrix (worldTransform prim t)).r0.length,
         (Affine.ExtractRotationMatrix (worldTransform prim t)).r1.length,
         (Affine.ExtractRotationMatrix (worldTransform prim t)).r2.length⟩) := by
  constructor
  · simp [get_world_position, hx]
  · simp [get_world_transform_components, hx]

/-- Witness for C9 at the concrete translated cube. -/
theorem components_translation_matches_position_witness :
    Prim.isXformable cubeEx = true ∧
    get_world_position cubeEx none =
      .ok (Affine.ExtractTranslation (worldTransform cubeEx none)) :=
  ⟨rfl, (components_translation_matches_position cubeEx none rfl).1⟩

/-- C10: every component of the scale vector returned by
`get_world_transform_components` is non-negative, being a Euclidean
length; a mirroring world scale `(-2, 3, 4)` is reported as the positive
magnitudes `(2, 3, 4)`. -/
theorem components_scale_nonneg :
    (∀ (prim : Prim) (t : TimeCode) (tr : Vec3) (rot : Mat3) (sc : Vec3),
      get_world_transform_components prim t = .ok (tr, rot, sc) →
      0 ≤ sc.x ∧ 0 ≤ sc.y ∧ 0 ≤ sc.z) ∧
    get_world_transform_components mirrorEx none =
      .ok (Affine.ExtractTranslation (worldTransform mirrorEx none),
        ExtractRotation (worldTransform mirrorEx none),
        ⟨2, 3, 4⟩) := by
  constructor
  · intro prim t tr rot sc h
    cases hx : prim.isXformable with
    | false => simp [get_world_transform_components, hx] at h
    | true =>
      simp only [get_world_transform_components, hx, if_pos, Except.ok.injEq,
        Prod.mk.injEq] at h
      obtain ⟨-, -, hsc⟩ := h
      subst hsc
      exact ⟨Real.sqrt_nonneg _, Real.sqrt_nonneg _, Real.sqrt_nonneg _⟩
  · have hw : worldTransform mirrorEx none = scaleMat ⟨-2, 3, 4⟩ := by
      simp [mirrorEx, worldTransform, localXform_single, evalOp_scale_const,
        Affine.comp_idA]
    have h0 : (Affine.ExtractRotationMatrix (worldTransform mirrorEx none)).r0.length = 2 := by
      rw [hw]
      simp only [Affine.ExtractRotationMatrix, scaleMat, Vec3.length]
      rw [show ((-2 : ℝ) ^ 2 + (0 : ℝ) ^ 2 + (0 : ℝ) ^ 2) = 2 ^ 2 by norm_num]
      exact Real.sqrt_sq (by norm_num)
    have h1 : (Affine.ExtractRotationMatrix (worldTransform mirrorEx none)).r1.length = 3 := by
      rw [hw]
      simp only [Affine.ExtractRotationMatrix, scaleMat, Vec3.length]
      rw [show ((0 : ℝ) ^ 2 + (3 : ℝ) ^ 2 + (0 : ℝ) ^ 2) = 3 ^ 2 by norm_num]
      exact Real.sqrt_sq (by norm_num)
    have h2 : (Affine.ExtractRotationMatrix (worldTransform mirrorEx none)).r2.length = 4 := by
      rw [hw]
      simp only [Affine.ExtractRotationMatrix, scaleMat, Vec3.length]
      rw [show ((0 : ℝ) ^ 2 + (0 : ℝ) ^ 2 + (4 : ℝ) ^ 2) = 4 ^ 2 by norm_num]
      exact Real.sqrt_sq (by norm_num)
    calc get_world_transform_components mirrorEx none
        = .ok (Affine.ExtractTranslation (worldTransform mirrorEx none),
            ExtractRotation (worldTransform mirrorEx none),
            ⟨(Affine.ExtractRotationMatrix (worldTransform mirrorEx none)).r0.length,
             (Affine.ExtractRotationMatrix (worldTransform mirrorEx none)).r1.length,
             (Affine.ExtractRotationMatrix (worldTransform mirrorEx none)).r2.length⟩) := by
          simp [get_world_transform_components, mirrorEx, Prim.isXformable]
      _ = .ok (Affine.ExtractTranslation (worldTransform mirrorEx none),
            ExtractRotation (worldTransform mirrorEx none),
            ⟨2, 3, 4⟩) := by rw [h0, h1, h2]

/-- C7: evaluating a multi-sample op at a time between two bracketing
samples returns their component-wise linear interpolation; at a time at or
before the first sample the first sample value is returned, and at a time
after the last sample the last sample value is returned (clamp).  The
translate op sampled `{0 -> (0,0,0), 50 -> (50,0,0), 100 -> (100,0,0)}`
yields `(25,0,0)` at time 25 and `(100,0,0)` at time 150. -/
theorem op_time_interpolation :
    (∀ (dflt : Option Vec3) (pre : List (ℝ × Vec3)) (t0 t1 : ℝ)
      (v0 v1 : Vec3) (post : List (ℝ × Vec3)) (t : ℝ),
      (∀ q ∈ pre, q.1 < t) → t0 < t → t ≤ t1 →
      evalTS lerpVec ⟨dflt, pre ++ (t0, v0) :: (t1, v1) :: post⟩ (some t) =
        some (lerpVec v0 v1 ((t - t0) / (t1 - t0)))) ∧
    (∀ (dflt : Option Vec3) (s : ℝ × Vec3) (rest : List (ℝ × Vec3)) (t : ℝ),
      t ≤ s.1 →
      evalTS lerpVec ⟨dflt, s :: rest⟩ (some t) = some s.2) ∧
    (∀ (dflt : Option Vec3) (s : ℝ × Vec3) (rest : List (ℝ × Vec3)) (t : ℝ),
      s.1 < t → (∀ q ∈ rest, q.1 < t) →
      evalTS lerpVec ⟨dflt, s :: rest⟩ (some t) =
        some ((rest.getLastD s).2)) ∧
    evalTS lerpVec animTS (some 25) = some ⟨25, 0, 0⟩ ∧
    evalTS lerpVec animTS (some 150) = some ⟨100, 0, 0⟩ := by
  refine ⟨?_, ?_, ?_, ?_, ?_⟩
  · intro dflt pre t0 t1 v0 v1 post t hall h0 h1
    cases pre with
    | nil =>
      simp only [evalTS, List.nil_append]
      congr 1
      simp only [interpFrom]
      rw [if_neg (not_le.mpr h0), if_pos h1]
    | cons q pre2 =>
      simp only [evalTS, List.cons_append]
      congr 1
      exact interpFrom_between lerpVec pre2 q t0 t1 v0 v1 post t
        (hall q (List.mem_cons_self _ _))
        (fun r hr => hall r (List.mem_cons_of_mem _ hr)) h0 h1
  · intro dflt s rest t h
    simp only [evalTS]
    congr 1
    exact interpFrom_clamp_below lerpVec s rest t h
  · intro dflt s rest t hs hall
    simp only [evalTS]
    congr 1
    exact interpFrom_clamp_above lerpVec rest s t hs hall
  · norm_num [evalTS, animTS, interpFrom, lerpVec]
  · norm_num [evalTS, animTS, interpFrom]

/-- Witness for C7: the bracketing-interpolation part applied to the
concrete sample triple at time 25. -/
theorem op_time_interpolation_witness :
    (0 : ℝ) < 25 ∧ (25 : ℝ) ≤ 50 ∧
    evalTS lerpVec
      ⟨none, [] ++ ((0 : ℝ), (⟨0, 0, 0⟩ : Vec3)) ::
        ((50 : ℝ), (⟨50, 0, 0⟩ : Vec3)) :: [((100 : ℝ), (⟨100, 0, 0⟩ : Vec3))]⟩
      (some 25) =
      some (lerpVec ⟨0, 0, 0⟩ ⟨50, 0, 0⟩ ((25 - 0) / (50 - 0))) :=
  ⟨by norm_num, by norm_num,
    op_time_interpolation.1 none [] 0 50 ⟨0, 0, 0⟩ ⟨50, 0, 0⟩
      [(100, ⟨100, 0, 0⟩)] 25 (by simp) (by norm_num) (by norm_num)⟩

/-- C8: a scale op that evaluates to a vector with a zero component yields
the warning-level `DegenerateInput` diagnostic on the diagnostic channel,
and evaluation continues with the very same (non-invertible) scale matrix
that plain evaluation produces; no exception is possible since checked
evaluation is a total function into a matrix and a diagnostic list. -/
theorem degenerate_scale_is_nonfatal_warning (ts : TimeSampled Vec3)
    (t : TimeCode) (v : Vec3) (hv : evalTS lerpVec ts t = some v)
    (hz : v.x = 0 ∨ v.y = 0 ∨ v.z = 0) :
    (evalOpChecked (.scaleOp ts) t).2 = [degenerateMsg] ∧
    (evalOpChecked (.scaleOp ts) t).1 = scaleMat v ∧
    (evalOpChecked (.scaleOp ts) t).1 = evalOp (.scaleOp ts) t := by
  refine ⟨?_, ?_, ?_⟩ <;> simp [evalOpChecked, evalOp, hv, hz]

/-- Witness for C8: the constant scale `(0, 1, 1)` triggers the diagnostic
and still evaluates to its scale matrix. -/
theorem degenerate_scale_is_nonfatal_warning_witness :
    evalTS lerpVec zeroScaleTS none = some ⟨0, 1, 1⟩ ∧
    ((⟨0, 1, 1⟩ : Vec3).x = 0 ∨ (⟨0, 1, 1⟩ : Vec3).y = 0 ∨
      (⟨0, 1, 1⟩ : Vec3).z = 0) ∧
    (evalOpChecked (.scaleOp zeroScaleTS) none).2 = [degenerateMsg] ∧
    (evalOpChecked (.scaleOp zeroScaleTS) none).1 =
      evalOp (.scaleOp zeroScaleTS) none :=
  ⟨rfl, Or.inl rfl,
    (degenerate_scale_is_nonfatal_warning zeroScaleTS none ⟨0, 1, 1⟩ rfl
      (Or.inl rfl)).1,
    (degenerate_scale_is_nonfatal_warning zeroScaleTS none ⟨0, 1, 1⟩ rfl
      (Or.inl rfl)).2.2⟩

/-- Witness for C10: applying the non-negativity part at the mirrored prim
and its concrete components. -/
theorem components_scale_nonneg_witness :
    get_world_transform_components mirrorEx none =
      .ok (Affine.ExtractTranslation (worldTransform mirrorEx none),
        ExtractRotation (worldTransform mirrorEx none),
        ⟨2, 3, 4⟩) ∧
    (0 : ℝ) ≤ 2 ∧ (0 : ℝ) ≤ 3 ∧ (0 : ℝ) ≤ 4 :=
  ⟨components_scale_nonneg.2,
    components_scale_nonneg.1 mirrorEx none _ _ _ components_scale_nonneg.2⟩
